import Mathlib

/-!
Shallow embedding of `edinet_tdnet_downloader.py` (EDINET + TDnet bulk
downloader).  Pure helpers become Lean functions; the network and the
filesystem become explicit oracles / explicit state.  Python semantics that
matter here (truthiness of `None`/`""`/empty collections, Unicode `\d` and
`\s` character classes, `str(None) = "None"`) are modelled explicitly.
-/

namespace EdinetTdnet

/-- Boolean test of Python truthiness for an optional list (`None` and the
empty collection are falsy, everything else truthy). -/
def truthy {α : Type} : Option (List α) → Bool
  | none => false
  | some l => !l.isEmpty

/-- Python `str(x)` applied to an optional string field: `str(None)` is the
literal text `"None"`. -/
def pyStr : Option String → String
  | none => "None"
  | some s => s

/-- Python `x or ""` applied to an optional string field: `None` and `""`
both give `""`, any other string gives itself. -/
def pyOrEmpty : Option String → String
  | none => ""
  | some s => s

/-- Start/end pairs of the code points of Unicode category Nd (decimal
digits), which is what Python's `\d` matches on `str` patterns. -/
def ndRanges : List (Nat × Nat) :=
  [(0x30, 0x39), (0x660, 0x669), (0x6F0, 0x6F9), (0x7C0, 0x7C9),
   (0x966, 0x96F), (0x9E6, 0x9EF), (0xA66, 0xA6F), (0xAE6, 0xAEF),
   (0xB66, 0xB6F), (0xBE6, 0xBEF), (0xC66, 0xC6F), (0xCE6, 0xCEF),
   (0xD66, 0xD6F), (0xDE6, 0xDEF), (0xE50, 0xE59), (0xED0, 0xED9),
   (0xF20, 0xF29), (0x1040, 0x1049), (0x1090, 0x1099), (0x17E0, 0x17E9),
   (0x1810, 0x1819), (0x1946, 0x194F), (0x19D0, 0x19D9), (0x1A80, 0x1A89),
   (0x1A90, 0x1A99), (0x1B50, 0x1B59), (0x1BB0, 0x1BB9), (0x1C40, 0x1C49),
   (0x1C50, 0x1C59), (0xA620, 0xA629), (0xA8D0, 0xA8D9), (0xA900, 0xA909),
   (0xA9D0, 0xA9D9), (0xA9F0, 0xA9F9), (0xAA50, 0xAA59), (0xABF0, 0xABF9),
   (0xFF10, 0xFF19), (0x104A0, 0x104A9), (0x10D30, 0x10D39),
   (0x11066, 0x1106F), (0x110F0, 0x110F9), (0x11136, 0x1113F),
   (0x111D0, 0x111D9), (0x112F0, 0x112F9), (0x11450, 0x11459),
   (0x114D0, 0x114D9), (0x11650, 0x11659), (0x116C0, 0x116C9),
   (0x11730, 0x11739), (0x118E0, 0x118E9), (0x11950, 0x11959),
   (0x11C50, 0x11C59), (0x11D50, 0x11D59), (0x11DA0, 0x11DA9),
   (0x16A60, 0x16A69), (0x16AC0, 0x16AC9), (0x16B50, 0x16B59),
   (0x1D7CE, 0x1D7FF), (0x1E140, 0x1E149), (0x1E2F0, 0x1E2F9),
   (0x1E950, 0x1E959), (0x1FBF0, 0x1FBF9)]

/-- Python's `\d` character class on `str` patterns: any Unicode decimal
digit (category Nd). -/
def pyIsDigit (c : Char) : Bool :=
  ndRanges.any fun r => decide (r.1 ≤ c.toNat ∧ c.toNat ≤ r.2)

/-- Code points Python's `str.isspace` (hence `str.strip()`) treats as
whitespace. -/
def pySpaceCodes : List Nat :=
  [0x9, 0xA, 0xB, 0xC, 0xD, 0x1C, 0x1D, 0x1E, 0x1F, 0x20, 0x85, 0xA0,
   0x1680, 0x2000, 0x2001, 0x2002, 0x2003, 0x2004, 0x2005, 0x2006, 0x2007,
   0x2008, 0x2009, 0x200A, 0x2028, 0x2029, 0x202F, 0x205F, 0x3000]

/-- Whitespace test used by Python `str.strip()`. -/
def pyIsSpace (c : Char) : Bool := pySpaceCodes.contains c.toNat

/-- Drop the characters satisfying `p` from both ends of a character list. -/
def stripWhile (p : Char → Bool) (l : List Char) : List Char :=
  ((l.dropWhile p).reverse.dropWhile p).reverse

/-- Python `str.strip()` (no argument): trim Unicode whitespace at both
ends. -/
def pyStrip (s : String) : String :=
  String.mk (stripWhile pyIsSpace s.toList)

/-- Substring test on character lists: does `needle` occur contiguously in
`hay`?  (Models `x in y` on Python strings and `re.search` of an escaped
literal.) -/
def listContains (hay needle : List Char) : Bool :=
  match hay with
  | [] => needle.isEmpty
  | _ :: rest => needle.isPrefixOf hay || listContains rest needle

/-- ASCII lowering of a character list; models `re.IGNORECASE` folding
(restricted to ASCII, which is all the repository's patterns rely on). -/
def lowerList (l : List Char) : List Char := l.map Char.toLower

/-- Search of a regex-escaped literal `pat` compiled with `re.IGNORECASE`
inside `text`: case-insensitive substring containment. -/
def patSearch (pat text : String) : Bool :=
  listContains (lowerList text.toList) (lowerList pat.toList)

/-- Plain (case-sensitive) substring containment, Python's `in` on two
strings. -/
def strContains (hay needle : String) : Bool :=
  listContains hay.toList needle.toList

/- ---------------------------------------------------------------------
HTTP wrapper `http_get` (lines 78–95).  The network is an oracle giving, for
each attempt index, either a transport exception or a response with a
status code and an (abstract) body.  The result records the outcome, the
number of attempts actually issued, and the list of `time.sleep` delays in
seconds. -/

/-- Outcome of one `requests.get` call: a transport exception (tagged by an
arbitrary code) or a response carrying an HTTP status and an abstract
body. -/
inductive Attempt where
  | exc : Nat → Attempt
  | resp : Nat → Nat → Attempt
deriving DecidableEq, Repr

/-- Exceptions `http_get` can raise: an `HTTPError` from
`raise_for_status`, a re-raised transport exception, or the final
`RuntimeError`. -/
inductive HErr where
  | httpError : Nat → HErr
  | netExc : Nat → HErr
  | runtimeErr : HErr
deriving DecidableEq, Repr

/-- Result of a run of `http_get`: the returned body or raised error, the
number of `requests.get` attempts issued, and the sleep trace. -/
structure HttpResult where
  outcome : Except HErr Nat
  attemptsUsed : Nat
  sleeps : List ℚ
deriving Repr

/-- Fixed retry delay of `http_get`: `time.sleep(1.5)`. -/
def retryDelay : ℚ := 3 / 2

/-- Loop body of `http_get`: `idx` is the index of the next attempt,
`lastExc` the captured `last_exc`, and the `Nat` argument the remaining
iterations of `range(max_retries)`.  A non-200 status outside
{429,500,502,503,504} hits `r.raise_for_status()`: for a 4xx/5xx status the
raised `HTTPError` is caught by the surrounding `except`, recorded in
`last_exc`, slept on, and the loop continues; for statuses below 400 (or
600 and above) `raise_for_status` is a no-op and the loop just continues
with no sleep. -/
def httpGetAux (oracle : Nat → Attempt) (idx : Nat) (lastExc : Option HErr)
    (used : Nat) (sleeps : List ℚ) : Nat → HttpResult
  | 0 => ⟨Except.error (lastExc.getD HErr.runtimeErr), used, sleeps⟩
  | n + 1 =>
    match oracle idx with
    | Attempt.exc e =>
        httpGetAux oracle (idx + 1) (some (HErr.netExc e)) (used + 1)
          (sleeps ++ [retryDelay]) n
    | Attempt.resp st body =>
        if st = 200 then ⟨Except.ok body, used + 1, sleeps⟩
        else if st ∈ [429, 500, 502, 503, 504] then
          httpGetAux oracle (idx + 1) lastExc (used + 1)
            (sleeps ++ [retryDelay]) n
        else if 400 ≤ st ∧ st < 600 then
          httpGetAux oracle (idx + 1) (some (HErr.httpError st)) (used + 1)
            (sleeps ++ [retryDelay]) n
        else
          httpGetAux oracle (idx + 1) lastExc (used + 1) sleeps n

/-- Model of `http_get(url, ..., max_retries)`: run up to `maxRetries`
attempts against the oracle, then raise `last_exc` if one was captured,
else `RuntimeError`. -/
def http_get (oracle : Nat → Attempt) (maxRetries : Nat) : HttpResult :=
  httpGetAux oracle 0 none 0 [] maxRetries

/- ---------------------------------------------------------------------
Identifier matcher `parse_codes_names` (lines 98–111). -/

/-- Match of the compiled regex `CODE4 = re.compile(r"^\d{4}$")` against a
whole token via `CODE4.match`: four Unicode decimal digits, optionally
followed by a single final newline (which `$` tolerates). -/
def code4Match (tok : String) : Bool :=
  let cs := tok.toList
  (cs.length = 4 && cs.all pyIsDigit) ||
  (cs.length = 5 && (cs.take 4).all pyIsDigit && cs.getLast? = some '\n')

/-- Helper of `pySplitComma`: `cur` holds the characters of the current
field in reverse. -/
def splitCommaAux : List Char → List Char → List String
  | [], cur => [String.mk cur.reverse]
  | c :: rest, cur =>
    if c = ',' then String.mk cur.reverse :: splitCommaAux rest []
    else splitCommaAux rest (c :: cur)

/-- Python `s.split(",")`: cut at every comma, keeping empty fields (the
empty string yields `[""]`). -/
def pySplitComma (s : String) : List String := splitCommaAux s.toList []

/-- Insertion into the model of a Python `set` of strings (membership is
all the program observes, so a duplicate-free list suffices). -/
def insertSet (s : List String) (x : String) : List String :=
  if s.contains x then s else s ++ [x]

/-- Body of the `for raw in arg.split(",")` loop of `parse_codes_names`:
strip the raw token, skip it when empty, add it to the code set when
`CODE4` matches, else append it to the pattern list. -/
def pcnStep (acc : List String × List String) (raw : String) :
    List String × List String :=
  let tok := pyStrip raw
  if tok = "" then acc
  else if code4Match tok then (insertSet acc.1 tok, acc.2)
  else (acc.1, acc.2 ++ [tok])

/-- Model of `parse_codes_names`: split the argument on commas, strip each
token, drop empties, send 4-digit tokens to the code set and the rest to
the (escaped, case-insensitive) pattern list; each half collapses to `none`
when empty.  Patterns are represented by their literal token text. -/
def parse_codes_names (arg : Option String) :
    Option (List String) × Option (List String) :=
  match arg with
  | none => (none, none)
  | some a =>
    if a = "" then (none, none)
    else
      let p := (pySplitComma a).foldl pcnStep ([], [])
      (if p.1 = [] then none else some p.1,
       if p.2 = [] then none else some p.2)

/- ---------------------------------------------------------------------
EDINET records, category filters and `edinet_pick` (lines 37–40 and
185–203). -/

/-- Filing record from the EDINET listing endpoint; each field models
`rec.get(key)` on the result dictionary (absent key = `none`). -/
structure EDoc where
  docID : Option String
  filerName : Option String
  secCode : Option String
  ordinanceCode : Option String
  formCode : Option String
  docDescription : Option String
deriving DecidableEq, Repr

/-- Model of `EDINET_FILTERS["yuho"]`: annual securities report, ordinance code
"010" and form code "030000" (fields go through `str(...)`). -/
def yuhoFilter (r : EDoc) : Bool :=
  pyStr r.ordinanceCode == "010" && pyStr r.formCode == "030000"

/-- Model of `EDINET_FILTERS["quarter"]`: quarterly report, ordinance code "010" and
form code in {"043000", "043001"}. -/
def quarterFilter (r : EDoc) : Bool :=
  pyStr r.ordinanceCode == "010" &&
    ["043000", "043001"].contains (pyStr r.formCode)

/-- Model of `match_company(name, pats)`: false when `pats` is falsy, otherwise true
iff some pattern searches successfully in the name. -/
def match_company (name : String) (pats : Option (List String)) : Bool :=
  if !truthy pats then false
  else (pats.getD []).any fun pat => patSearch pat name

/-- Model of `edinet_pick(records, include_yuho, include_quarter, sec_codes,
name_pats)`: keep the records whose enabled category filter passes and,
when an identifier filter is supplied, whose security code is in the code
set or whose issuer name matches some pattern. -/
def edinet_pick (records : List EDoc) (include_yuho include_quarter : Bool)
    (sec_codes name_pats : Option (List String)) : List EDoc :=
  match records with
  | [] => []
  | rec :: rest =>
    let tail := edinet_pick rest include_yuho include_quarter sec_codes name_pats
    let sec := pyOrEmpty rec.secCode
    let issuer := pyOrEmpty rec.filerName
    let okType := (include_yuho && yuhoFilter rec) ||
      (include_quarter && quarterFilter rec)
    if !okType then tail
    else if truthy sec_codes || truthy name_pats then
      if !((truthy sec_codes && (sec_codes.getD []).contains sec) ||
            match_company issuer name_pats) then tail
      else rec :: tail
    else rec :: tail

/- ---------------------------------------------------------------------
Filename sanitiser `safe_filename` (lines 43 and 73–75). -/

/-- Characters kept by `SAFE_NAME = [^\w\-\.　-鿿]+`: word
characters (`\w`, modelled by ASCII alphanumerics and underscore — the
explicit `　-鿿` range covers the CJK text the program meets),
hyphen, dot, and the CJK block U+3000–U+9FFF. -/
def safeKeep (c : Char) : Bool :=
  c.isAlphanum || c = '_' || c = '-' || c = '.' ||
    decide (0x3000 ≤ c.toNat ∧ c.toNat ≤ 0x9FFF)

/-- Model of `SAFE_NAME.sub("_", name)`: replace every maximal run of disallowed
characters by a single underscore (`inRun` remembers whether the previous
character was part of such a run). -/
def subSafeGo (inRun : Bool) : List Char → List Char
  | [] => []
  | c :: rest =>
    if safeKeep c then c :: subSafeGo false rest
    else if inRun then subSafeGo true rest
    else '_' :: subSafeGo true rest

/-- Model of `safe_filename(name)`: collapse disallowed runs to `_`, strip leading
and trailing `.`, `_` and space, and cap at 180 characters. -/
def safe_filename (name : String) : String :=
  String.mk ((stripWhile (fun c => c = '.' || c = '_' || c = ' ')
    (subSafeGo false name.toList)).take 180)

/- ---------------------------------------------------------------------
Registry downloader `edinet_download` (lines 206–223) and the per-day
document loop of `main` (lines 330–342).  The per-document fetch is an
oracle from (document id string, filetype) to `none` (the fetch or write
raises) or `some body`; the filesystem is the list of written paths. -/

/-- Map of `EDINET_TYPE_MAP` keys to extensions: `.zip` for the bundle kinds
`xbrl` and `csv`, `.pdf` for `pdf`. -/
def edinetExt (ft : String) : String :=
  if ft = "xbrl" || ft = "csv" then ".zip" else ".pdf"

/-- Path written by `edinet_download` for one document and filetype:
`out_dir / f"{sec}-{safe_filename(issuer)}-{doc_id}-{ft}{ext}"`. -/
def edinetPath (outDir : String) (doc : EDoc) (ft : String) : String :=
  outDir ++ "/" ++ pyOrEmpty doc.secCode ++ "-" ++
    safe_filename (pyOrEmpty doc.filerName) ++ "-" ++ pyStr doc.docID ++
    "-" ++ ft ++ edinetExt ft

/-- Result of one `edinet_download` call: which filetypes were attempted
(in order), which paths were written, and whether the call returned
normally (`ok = false` means it raised after the listed writes). -/
structure DlResult where
  attempted : List String
  saved : List String
  ok : Bool
deriving DecidableEq, Repr

/-- Model of `edinet_download(doc, out_dir, ...)` over the per-kind fetch
oracle: iterate the requested filetypes, fetching and writing each; a
failing kind raises immediately, so later kinds are not attempted and
earlier writes stay. -/
def edinet_download (fetch : String → String → Option Nat) (outDir : String)
    (doc : EDoc) : List String → DlResult
  | [] => ⟨[], [], true⟩
  | ft :: rest =>
    match fetch (pyStr doc.docID) ft with
    | none => ⟨[ft], [], false⟩
    | some _ =>
      let r := edinet_download fetch outDir doc rest
      ⟨ft :: r.attempted, edinetPath outDir doc ft :: r.saved, r.ok⟩

/-- Run-log row built by `main` for one successfully downloaded document. -/
def edinetRow (dayIso : String) (doc : EDoc) (saved : List String) :
    List String :=
  ["EDINET", dayIso, pyOrEmpty doc.secCode, pyOrEmpty doc.filerName,
   pyOrEmpty doc.docID, pyOrEmpty doc.docDescription,
   String.intercalate " | " saved]

/-- State of one day of the EDINET loop in `main`: files written so far,
log rows collected so far, and warnings printed so far. -/
structure DayState where
  files : List String
  rows : List (List String)
  warns : List String
deriving DecidableEq, Repr

/-- Inner loop of `main` over the picked documents of one day: each
document is downloaded; on an exception a warning is printed and the loop
continues with the next document, appending no row for the failed one.
Files written before the failure stay in `files`. -/
def edinetDayLoop (fetch : String → String → Option Nat) (outDir : String)
    (dayIso : String) (filetypes : List String) : List EDoc → DayState
  | [] => ⟨[], [], []⟩
  | doc :: docs =>
    let r := edinet_download fetch outDir doc filetypes
    let s := edinetDayLoop fetch outDir dayIso filetypes docs
    if r.ok then
      ⟨r.saved ++ s.files, edinetRow dayIso doc r.saved :: s.rows, s.warns⟩
    else
      ⟨r.saved ++ s.files, s.rows, pyStr doc.docID :: s.warns⟩

/- ---------------------------------------------------------------------
TDnet feed source (lines 228–290). -/

/-- Calendar date (`datetime.date`); only formatting and equality are used
by the program. -/
structure PDate where
  year : Nat
  month : Nat
  day : Nat
deriving DecidableEq, Repr

/-- Left-pad the decimal representation of `n` with zeros to `w` digits,
as Python's `%0wd` format does. -/
def zpad (w n : Nat) : String :=
  let s := toString n
  String.mk (List.replicate (w - s.length) '0') ++ s

/-- Python `f"{d:%Y%m%d}"`. -/
def dateYmd8 (d : PDate) : String := zpad 4 d.year ++ zpad 2 d.month ++ zpad 2 d.day

/-- Python `f"{d:%Y-%m-%d}"` (also `d.isoformat()`). -/
def dateIso (d : PDate) : String :=
  zpad 4 d.year ++ "-" ++ zpad 2 d.month ++ "-" ++ zpad 2 d.day

/-- The `TDNET_BASE` constant. -/
def TDNET_BASE : String := "https://webapi.yanoshin.jp/webapi/tdnet/list"

/-- Model of `tdnet_feed_urls(start, end, limit)`: one single-day URL when the range
is one day, otherwise the range URL plus the recent URL capped at
`limit`. -/
def tdnet_feed_urls (start endD : PDate) (limit : Nat) : List String :=
  if start = endD then [TDNET_BASE ++ "/" ++ dateYmd8 start ++ ".atom"]
  else [TDNET_BASE ++ "/" ++ dateYmd8 start ++ "-" ++ dateYmd8 endD ++ ".atom",
        TDNET_BASE ++ "/recent.atom?limit=" ++ toString limit]

/-- Feed entry as the program reads it: `e.get("title", "")`,
`e.get("summary", "")`, `e.get("link")`, `e.get("published")`. -/
structure TEntry where
  title : String
  summary : String
  link : Option String
  published : Option String
deriving DecidableEq, Repr

/-- Match of the regex `(?<!\d)(\d{4})(?!\d)` starting exactly at the
current position: `prev` is the character before the position (for the
lookbehind), and the list must start with four decimal digits not followed
by a fifth. -/
def code4At (prev : Option Char) : List Char → Option String
  | a :: b :: c :: d :: rest =>
    if !(prev.any pyIsDigit) && pyIsDigit a && pyIsDigit b && pyIsDigit c &&
        pyIsDigit d && !(rest.head?.any pyIsDigit) then
      some (String.mk [a, b, c, d])
    else none
  | _ => none

/-- Leftmost match of `(?<!\d)(\d{4})(?!\d)` (`re.search` semantics): try
each start position from the left, remembering the previous character. -/
def findCode4 (prev : Option Char) : List Char → Option String
  | [] => none
  | c :: rest =>
    match code4At prev (c :: rest) with
    | some r => some r
    | none => findCode4 (some c) rest

/-- Candidate security code extracted by `tdnet_entry_matches`: first
standalone 4-digit run of `re.search(r"(?<!\d)(\d{4})(?!\d)", text)`. -/
def extractCode (text : String) : Option String := findCode4 none text.toList

/-- Model of `tdnet_entry_matches(e, sec_codes, name_pats)`: true when the
extracted code is in the supplied code set, or some name pattern hits
title+summary, or no identifier filter at all was supplied. -/
def tdnet_entry_matches (e : TEntry) (sec_codes name_pats : Option (List String)) :
    Bool :=
  let blob := e.title ++ " " ++ e.summary
  let code := extractCode blob
  let hitCode := truthy sec_codes &&
    (match code with
     | some c => !(c = "") && (sec_codes.getD []).contains c
     | none => false)
  let hitName := truthy name_pats &&
    (name_pats.getD []).any fun pat => patSearch pat blob
  if hitCode then true
  else if hitName then true
  else !(truthy sec_codes || truthy name_pats)

/-- Save date for one feed entry (lines 276–282): `None` when `published`
is falsy; the parsed date when `isoparse` succeeds; the range start when it
raises; then `day = pub_dt or start` (a date is always truthy). -/
def pubDay (published : Option String) (parseDate : String → Option PDate)
    (start : PDate) : PDate :=
  match published with
  | none => start
  | some p =>
    if p = "" then start
    else match parseDate p with
      | some d => d
      | none => start

/-- File written by the TDnet loop: output root, save date (directory
`TDNET/<YYYY-MM-DD>`), and file name. -/
structure TPath where
  root : String
  day : PDate
  fname : String
deriving DecidableEq, Repr

/-- State threaded through the TDnet download loop: links seen (dedup
set), paths written, and the sleep trace. -/
structure TRun where
  seen : List String
  saved : List TPath
  sleeps : List ℚ
deriving Repr

/-- One feed entry of the TDnet loop body (lines 262–289): drop entries
without 決算短信 in the title, without a link or with a seen link, or not
matching the identifier filter; mark the link seen, fetch it with
`http_get(link, max_retries=3)` (skipping the entry if that raises), and
write the PDF under the save date's directory. -/
def tdnetStep (linkOracle : String → Nat → Attempt)
    (parseDate : String → Option PDate) (start : PDate) (outRoot : String)
    (sleepSec : ℚ) (sec_codes name_pats : Option (List String))
    (st : TRun) (e : TEntry) : TRun :=
  if !strContains e.title "決算短信" then st
  else
    let link := pyOrEmpty e.link
    if link = "" || st.seen.contains link then st
    else if !tdnet_entry_matches e sec_codes name_pats then st
    else
      let seen := st.seen ++ [link]
      match (http_get (linkOracle link) 3).outcome with
      | Except.error _ => ⟨seen, st.saved, st.sleeps⟩
      | Except.ok _ =>
        let day := pubDay e.published parseDate start
        let path : TPath := ⟨outRoot, day, safe_filename e.title ++ ".pdf"⟩
        ⟨seen, st.saved ++ [path], st.sleeps ++ [sleepSec]⟩

/-- Model of `tdnet_download_dec_summary(start, end, out_root, sec_codes,
name_pats, sleep_sec)`: iterate the feed URLs (built with the hard-coded
`limit=1000`) and each URL's entries, threading the seen-set and the
saved-paths state. -/
def tdnet_download_dec_summary (feedOf : String → List TEntry)
    (linkOracle : String → Nat → Attempt) (parseDate : String → Option PDate)
    (start endD : PDate) (outRoot : String)
    (sec_codes name_pats : Option (List String)) (sleepSec : ℚ) : TRun :=
  (tdnet_feed_urls start endD 1000).foldl
    (fun st url =>
      (feedOf url).foldl
        (tdnetStep linkOracle parseDate start outRoot sleepSec sec_codes name_pats)
        st)
    ⟨[], [], []⟩

/- ---------------------------------------------------------------------
Options (lines 47–61) and the TDnet pass of `main` (lines 344–353). -/

/-- The `Options` dataclass (`end` is renamed `endDate` for Lean). -/
structure OptionsM where
  start : PDate
  endDate : PDate
  out : String
  edinet_filetypes : List String
  include_yuho : Bool
  include_quarter : Bool
  tdnet : Bool
  tdnet_limit : Nat
  sec_codes : Option (List String)
  name_pats : Option (List String)
  api_key : Option String
  max_retries : Nat
  sleep_sec : ℚ
deriving Repr

/-- The TDnet pass of `main`: `tdnet_download_dec_summary(opt.start,
opt.end, opt.out, opt.sec_codes, opt.name_pats, opt.sleep_sec)` — note that
`opt.tdnet_limit` and `opt.max_retries` are not among the arguments. -/
def tdnetPass (feedOf : String → List TEntry)
    (linkOracle : String → Nat → Attempt) (parseDate : String → Option PDate)
    (opt : OptionsM) : TRun :=
  tdnet_download_dec_summary feedOf linkOracle parseDate opt.start opt.endDate
    opt.out opt.sec_codes opt.name_pats opt.sleep_sec

/- ---------------------------------------------------------------------
Run log `append_log` (lines 295–302).  The log file is `none` when it does
not exist, `some rows` otherwise; a row is a CSV record. -/

/-- Header row written on first creation of `index.csv`. -/
def logHeader : List String :=
  ["source", "date", "secCode", "issuer", "docID", "desc", "files"]

/-- Model of `append_log(index_csv, rows)`: open in append mode, write the
header first when the file did not exist, then all given rows. -/
def append_log (existing : Option (List (List String)))
    (rows : List (List String)) : List (List String) :=
  match existing with
  | none => logHeader :: rows
  | some content => content ++ rows

/- ---------------------------------------------------------------------
Specification-side description of the identifier matcher, written from the
spec's words ("splits on commas, trims whitespace and discards empty
tokens; a token is classified as a security code iff ..."), to be compared
with `parse_codes_names`. -/

/-- Token list described by the spec: split on commas, trim whitespace,
discard empty tokens. -/
def specTokens (a : String) : List String :=
  ((pySplitComma a).map pyStrip).filter fun t => t ≠ ""

/-- Left-to-right set construction from a token list (first occurrence
kept). -/
def dedupFold (l : List String) : List String := l.foldl insertSet []

/-- Wrap a half of the matcher result, collapsing the empty list to
`none`. -/
def packHalf (l : List String) : Option (List String) :=
  if l = [] then none else some l

/-- Test from the claim's words "consists of exactly 4 ASCII digits". -/
def fourAsciiDigits (t : String) : Bool :=
  t.toList.length = 4 && t.toList.all Char.isDigit

/- ---------------------------------------------------------------------
Theorems. -/

theorem pcn_foldl (raws : List String) (cs ps : List String) :
    raws.foldl pcnStep (cs, ps) =
      (((raws.map pyStrip).filter (fun t => t ≠ "")).filter code4Match
          |>.foldl insertSet cs,
       ps ++ ((raws.map pyStrip).filter (fun t => t ≠ "")).filter
          (fun t => !code4Match t)) := by
  induction raws generalizing cs ps with
  | nil => simp
  | cons r rs ih =>
    simp only [List.foldl_cons, List.map_cons]
    by_cases h0 : pyStrip r = ""
    · simp [pcnStep, h0, ih]
    · by_cases h1 : code4Match (pyStrip r)
      · simp [pcnStep, h0, h1, ih]
      · simp [pcnStep, h0, h1, ih]

/-- C2 (amended): `parse_codes_names` splits on commas, trims whitespace,
discards empty tokens; a token joins the code set iff it matches the
Python regex `^\d{4}$` — i.e. consists of exactly 4 Unicode decimal
digits, not only ASCII ones — and every other token becomes a pattern;
each half is `none` exactly when it collected no tokens. -/
theorem parse_codes_names_spec (arg : Option String) :
    parse_codes_names arg =
      (packHalf (dedupFold ((specTokens (arg.getD "")).filter code4Match)),
       packHalf ((specTokens (arg.getD "")).filter fun t => !code4Match t)) := by
  match arg with
  | none => decide
  | some a =>
    by_cases ha : a = ""
    · subst ha; decide
    · simp only [parse_codes_names, ha, if_false, Option.getD_some]
      rw [pcn_foldl]
      simp [specTokens, dedupFold, packHalf]

/-- C2 counterexample: the token `７２０３` (full-width digits) is
classified as a security code by `parse_codes_names` although it does not
consist of 4 ASCII digits, refuting the "ASCII" half of the claim. -/
theorem parse_codes_names_fullwidth :
    (parse_codes_names (some "７２０３")).1 = some ["７２０３"] ∧
      fourAsciiDigits "７２０３" = false := by
  constructor
  · decide
  · decide

/-- C1 (evaluation at the failing input): with every attempt answering
HTTP 404 and `max_retries = 3`, `http_get` does NOT raise after the first
attempt: the `HTTPError` from `raise_for_status` is caught by the blanket
`except`, so the call performs 3 attempts and 3 retry delays of 1.5 s and
only then raises the last `HTTPError` — contradicting the claim that a
non-retryable status raises immediately with no retry and no delay. -/
theorem http_get_404_retries :
    http_get (fun _ => Attempt.resp 404 0) 3 =
      ⟨Except.error (HErr.httpError 404), 3, [retryDelay, retryDelay, retryDelay]⟩ := by
  rfl

/-- C3: if the first two attempts answer 503 and the third answers 200,
`http_get` with any `max_retries ≥ 3` returns the third attempt's
response after exactly two intervening 1.5-second delays, having used
exactly 3 ≤ `max_retries` attempts. -/
theorem http_get_retry_then_ok (oracle : Nat → Attempt) (m : Nat)
    (b0 b1 b2 : Nat) (hm : 3 ≤ m)
    (h0 : oracle 0 = Attempt.resp 503 b0) (h1 : oracle 1 = Attempt.resp 503 b1)
    (h2 : oracle 2 = Attempt.resp 200 b2) :
    http_get oracle m = ⟨Except.ok b2, 3, [retryDelay, retryDelay]⟩ ∧
      (http_get oracle m).attemptsUsed ≤ m := by
  obtain ⟨k, rfl⟩ : ∃ k, m = k + 3 := ⟨m - 3, by omega⟩
  have : http_get oracle (k + 3) = ⟨Except.ok b2, 3, [retryDelay, retryDelay]⟩ := by
    show httpGetAux oracle 0 none 0 [] (k + 3) = _
    simp only [httpGetAux, h0, h1, h2]
    norm_num
  exact ⟨this, by rw [this]; show 3 ≤ k + 3; omega⟩

/-- C3 witness: a concrete oracle answering 503, 503, 200 with
`max_retries = 5`. -/
theorem http_get_retry_then_ok_witness :
    http_get (fun n => if n < 2 then Attempt.resp 503 5 else Attempt.resp 200 9) 5 =
        ⟨Except.ok 9, 3, [retryDelay, retryDelay]⟩ ∧
      (http_get (fun n => if n < 2 then Attempt.resp 503 5 else Attempt.resp 200 9) 5).attemptsUsed ≤ 5 :=
  http_get_retry_then_ok _ 5 5 5 9 (by norm_num) rfl rfl rfl

/-- C4: `edinet_pick` never returns a record whose category gate is
disabled — every returned record satisfies (include_yuho AND the annual
filter) OR (include_quarter AND the quarterly filter), whatever the
identifier filters are. -/
theorem edinet_pick_gate (records : List EDoc) (iY iQ : Bool)
    (sc np : Option (List String)) (rec : EDoc)
    (h : rec ∈ edinet_pick records iY iQ sc np) :
    ((iY && yuhoFilter rec) || (iQ && quarterFilter rec)) = true := by
  induction records with
  | nil => simp [edinet_pick] at h
  | cons r rs ih =>
    simp only [edinet_pick] at h
    cases hT : ((iY && yuhoFilter r) || (iQ && quarterFilter r)) with
    | false => rw [hT] at h; simp at h; exact ih h
    | true =>
      rw [hT] at h
      simp only [Bool.not_true, Bool.false_eq_true, if_false] at h
      split at h
      · split at h
        · exact ih h
        · rcases List.mem_cons.mp h with rfl | h
          · exact hT
          · exact ih h
      · rcases List.mem_cons.mp h with rfl | h
        · exact hT
        · exact ih h

/-- C4 witness: a concrete annual-report record picked with both
identifier halves absent. -/
theorem edinet_pick_gate_witness :
    ((true && yuhoFilter ⟨some "D1", some "Toyota", some "7203", some "010",
        some "030000", some "d"⟩) ||
      (false && quarterFilter ⟨some "D1", some "Toyota", some "7203",
        some "010", some "030000", some "d"⟩)) = true :=
  edinet_pick_gate
    [⟨some "D1", some "Toyota", some "7203", some "010", some "030000", some "d"⟩]
    true false none none
    ⟨some "D1", some "Toyota", some "7203", some "010", some "030000", some "d"⟩
    (by decide)

/-- C5: with both identifier halves `none`, `edinet_pick` is exactly the
category-gate filter of the input list. -/
theorem edinet_pick_no_identifier (records : List EDoc) (iY iQ : Bool) :
    edinet_pick records iY iQ none none =
      records.filter fun r => (iY && yuhoFilter r) || (iQ && quarterFilter r) := by
  induction records with
  | nil => rfl
  | cons r rs ih =>
    simp only [edinet_pick, truthy, List.filter_cons, ih]
    cases hT : ((iY && yuhoFilter r) || (iQ && quarterFilter r)) <;> simp [hT]

theorem code4At_ne_empty (prev : Option Char) (l : List Char) (c : String)
    (h : code4At prev l = some c) : c ≠ "" := by
  unfold code4At at h
  split at h
  · split at h
    · cases h
      intro hc
      simp [String.ext_iff] at hc
    · cases h
  · cases h

theorem findCode4_ne_empty (prev : Option Char) (l : List Char) (c : String)
    (h : findCode4 prev l = some c) : c ≠ "" := by
  induction l generalizing prev with
  | nil => simp [findCode4] at h
  | cons a rest ih =>
    rw [findCode4] at h
    cases hc : code4At prev (a :: rest) with
    | some r =>
      rw [hc] at h
      cases h
      exact code4At_ne_empty _ _ _ hc
    | none =>
      rw [hc] at h
      exact ih _ h

/-- C6: the candidate code extracted from the joined title and summary is
the first 4-digit run not adjacent to another digit — in particular
`"... 7203 ..."` and `"7203決算短信"` both yield `"7203"` — and the entry
matches iff the extracted code is in the supplied code set, or some name
pattern hits title+summary, or no identifier filter at all was supplied
(in particular, matching is unconditional when both halves are `none`). -/
theorem tdnet_entry_matches_spec :
    extractCode ("... 7203 ..." ++ " " ++ "") = some "7203" ∧
    extractCode ("7203決算短信" ++ " " ++ "") = some "7203" ∧
    (∀ e : TEntry, tdnet_entry_matches e none none = true) ∧
    ∀ (e : TEntry) (sc np : Option (List String)),
      tdnet_entry_matches e sc np = true ↔
        (truthy sc = true ∧ ∃ c, extractCode (e.title ++ " " ++ e.summary) = some c ∧
          c ∈ sc.getD []) ∨
        (truthy np = true ∧ ∃ p ∈ np.getD [],
          patSearch p (e.title ++ " " ++ e.summary) = true) ∨
        (truthy sc = false ∧ truthy np = false) := by
  refine ⟨by decide, by decide, ?_, ?_⟩
  · intro e
    simp [tdnet_entry_matches, truthy]
  · intro e sc np
    simp only [tdnet_entry_matches]
    cases hc : extractCode (e.title ++ " " ++ e.summary) with
    | none =>
      cases hts : truthy sc <;> cases htn : truthy np <;>
        simp [hc, hts, htn, List.any_eq_true]
    | some c =>
      have hne : c ≠ "" := findCode4_ne_empty _ _ _ hc
      cases hts : truthy sc <;> cases htn : truthy np <;>
        simp [hc, hts, htn, hne, List.any_eq_true, List.elem_iff]

theorem edinet_download_fail (fetch : String → String → Option Nat)
    (outDir : String) (doc : EDoc) (pref : List String) (ft : String)
    (rest : List String)
    (hok : ∀ f ∈ pref, (fetch (pyStr doc.docID) f).isSome = true)
    (hfail : fetch (pyStr doc.docID) ft = none) :
    edinet_download fetch outDir doc (pref ++ ft :: rest) =
      ⟨pref ++ [ft], pref.map (edinetPath outDir doc), false⟩ := by
  induction pref with
  | nil => simp [edinet_download, hfail]
  | cons f fs ih =>
    obtain ⟨b, hb⟩ := Option.isSome_iff_exists.mp (hok f (by simp))
    have ih' := ih fun g hg => hok g (by simp [hg])
    simp [edinet_download, hb, ih']

theorem edinetDayLoop_append (fetch : String → String → Option Nat)
    (outDir dayIso : String) (filetypes : List String) (xs ys : List EDoc) :
    edinetDayLoop fetch outDir dayIso filetypes (xs ++ ys) =
      ⟨(edinetDayLoop fetch outDir dayIso filetypes xs).files ++
          (edinetDayLoop fetch outDir dayIso filetypes ys).files,
        (edinetDayLoop fetch outDir dayIso filetypes xs).rows ++
          (edinetDayLoop fetch outDir dayIso filetypes ys).rows,
        (edinetDayLoop fetch outDir dayIso filetypes xs).warns ++
          (edinetDayLoop fetch outDir dayIso filetypes ys).warns⟩ := by
  induction xs with
  | nil => simp [edinetDayLoop]
  | cons d ds ih =>
    simp only [List.cons_append, edinetDayLoop, ih]
    cases (edinet_download fetch outDir d filetypes).ok <;> simp [ih]

/-- C7: when the fetch of one requested file kind of a document fails
(first failure at kind `ft`, after the kinds of `pref` succeeded), that
document's download attempts exactly the kinds up to and including `ft`
(none after it), returns abnormally having written exactly the files of
the earlier kinds, and the day loop keeps those files, appends no log row
for the document, records a warning for it, and still processes all
following documents. -/
theorem edinet_day_kind_failure (fetch : String → String → Option Nat)
    (outDir dayIso : String) (filetypes : List String) (pre post : List EDoc)
    (doc : EDoc) (pref : List String) (ft : String) (rest : List String)
    (hft : filetypes = pref ++ ft :: rest)
    (hok : ∀ f ∈ pref, (fetch (pyStr doc.docID) f).isSome = true)
    (hfail : fetch (pyStr doc.docID) ft = none) :
    edinet_download fetch outDir doc filetypes =
      ⟨pref ++ [ft], pref.map (edinetPath outDir doc), false⟩ ∧
    edinetDayLoop fetch outDir dayIso filetypes (pre ++ doc :: post) =
      ⟨(edinetDayLoop fetch outDir dayIso filetypes pre).files ++
          pref.map (edinetPath outDir doc) ++
          (edinetDayLoop fetch outDir dayIso filetypes post).files,
        (edinetDayLoop fetch outDir dayIso filetypes pre).rows ++
          (edinetDayLoop fetch outDir dayIso filetypes post).rows,
        (edinetDayLoop fetch outDir dayIso filetypes pre).warns ++
          pyStr doc.docID :: (edinetDayLoop fetch outDir dayIso filetypes post).warns⟩ := by
  subst hft
  have hdl := edinet_download_fail fetch outDir doc pref ft rest hok hfail
  refine ⟨hdl, ?_⟩
  rw [edinetDayLoop_append]
  simp only [edinetDayLoop, hdl]
  simp [List.append_assoc]

/-- C7 witness: the "csv" kind of document D1 fails after its "pdf" kind
succeeded; the following document D2 is still processed. -/
theorem edinet_day_kind_failure_witness :
    edinet_download (fun _ f => if f = "pdf" then some 1 else none) "out"
        ⟨some "D1", some "Foo", some "7203", some "010", some "030000", some "d"⟩
        ["pdf", "csv"] =
      ⟨["pdf"] ++ ["csv"],
        ["pdf"].map (edinetPath "out"
          ⟨some "D1", some "Foo", some "7203", some "010", some "030000", some "d"⟩),
        false⟩ ∧
    edinetDayLoop (fun _ f => if f = "pdf" then some 1 else none) "out"
        "2025-08-01" ["pdf", "csv"]
        ([] ++ ⟨some "D1", some "Foo", some "7203", some "010", some "030000", some "d"⟩ ::
          [⟨some "D2", some "Bar", some "6758", some "010", some "030000", some "e"⟩]) =
      ⟨(edinetDayLoop (fun _ f => if f = "pdf" then some 1 else none) "out"
            "2025-08-01" ["pdf", "csv"] []).files ++
          ["pdf"].map (edinetPath "out"
            ⟨some "D1", some "Foo", some "7203", some "010", some "030000", some "d"⟩) ++
          (edinetDayLoop (fun _ f => if f = "pdf" then some 1 else none) "out"
            "2025-08-01" ["pdf", "csv"]
            [⟨some "D2", some "Bar", some "6758", some "010", some "030000", some "e"⟩]).files,
        (edinetDayLoop (fun _ f => if f = "pdf" then some 1 else none) "out"
            "2025-08-01" ["pdf", "csv"] []).rows ++
          (edinetDayLoop (fun _ f => if f = "pdf" then some 1 else none) "out"
            "2025-08-01" ["pdf", "csv"]
            [⟨some "D2", some "Bar", some "6758", some "010", some "030000", some "e"⟩]).rows,
        (edinetDayLoop (fun _ f => if f = "pdf" then some 1 else none) "out"
            "2025-08-01" ["pdf", "csv"] []).warns ++
          pyStr (some "D1") ::
            (edinetDayLoop (fun _ f => if f = "pdf" then some 1 else none) "out"
              "2025-08-01" ["pdf", "csv"]
              [⟨some "D2", some "Bar", some "6758", some "010", some "030000", some "e"⟩]).warns⟩ :=
  edinet_day_kind_failure (fun _ f => if f = "pdf" then some 1 else none) "out"
    "2025-08-01" ["pdf", "csv"] []
    [⟨some "D2", some "Bar", some "6758", some "010", some "030000", some "e"⟩]
    ⟨some "D1", some "Foo", some "7203", some "010", some "030000", some "d"⟩
    ["pdf"] "csv" [] rfl (by decide) (by decide)

theorem tdnetStep_saved (linkOracle : String → Nat → Attempt)
    (parseDate : String → Option PDate) (start : PDate) (outRoot : String)
    (sleepSec : ℚ) (sc np : Option (List String)) (st : TRun) (e : TEntry)
    (p : TPath)
    (hp : p ∈ (tdnetStep linkOracle parseDate start outRoot sleepSec sc np st e).saved) :
    p ∈ st.saved ∨
      (p.root = outRoot ∧ p.day = pubDay e.published parseDate start ∧
        p.fname = safe_filename e.title ++ ".pdf") := by
  simp only [tdnetStep] at hp
  split at hp
  · exact Or.inl hp
  · split at hp
    · exact Or.inl hp
    · split at hp
      · exact Or.inl hp
      · split at hp
        · exact Or.inl hp
        · rcases List.mem_append.mp hp with h | h
          · exact Or.inl h
          · simp only [List.mem_singleton] at h
            subst h
            exact Or.inr ⟨rfl, rfl, rfl⟩

theorem tdnetFoldEntries_saved (linkOracle : String → Nat → Attempt)
    (parseDate : String → Option PDate) (start : PDate) (outRoot : String)
    (sleepSec : ℚ) (sc np : Option (List String)) (es : List TEntry)
    (st : TRun) (p : TPath)
    (hp : p ∈ (es.foldl
        (tdnetStep linkOracle parseDate start outRoot sleepSec sc np) st).saved) :
    p ∈ st.saved ∨ ∃ e ∈ es,
      p.root = outRoot ∧ p.day = pubDay e.published parseDate start ∧
        p.fname = safe_filename e.title ++ ".pdf" := by
  induction es generalizing st with
  | nil => exact Or.inl hp
  | cons e es ih =>
    rw [List.foldl_cons] at hp
    rcases ih _ hp with h | ⟨e', he', hday⟩
    · rcases tdnetStep_saved _ _ _ _ _ _ _ _ _ _ h with h' | h'
      · exact Or.inl h'
      · exact Or.inr ⟨e, by simp, h'⟩
    · exact Or.inr ⟨e', by simp [he'], hday⟩

theorem tdnetFoldUrls_saved (feedOf : String → List TEntry)
    (linkOracle : String → Nat → Attempt) (parseDate : String → Option PDate)
    (start : PDate) (outRoot : String) (sleepSec : ℚ)
    (sc np : Option (List String)) (urls : List String) (st : TRun) (p : TPath)
    (hp : p ∈ (urls.foldl
        (fun acc url => (feedOf url).foldl
          (tdnetStep linkOracle parseDate start outRoot sleepSec sc np) acc)
        st).saved) :
    p ∈ st.saved ∨ ∃ url ∈ urls, ∃ e ∈ feedOf url,
      p.root = outRoot ∧ p.day = pubDay e.published parseDate start ∧
        p.fname = safe_filename e.title ++ ".pdf" := by
  induction urls generalizing st with
  | nil => exact Or.inl hp
  | cons u us ih =>
    rw [List.foldl_cons] at hp
    rcases ih _ hp with h | ⟨u', hu', he⟩
    · rcases tdnetFoldEntries_saved _ _ _ _ _ _ _ _ _ _ h with h' | ⟨e, he, hd⟩
      · exact Or.inl h'
      · exact Or.inr ⟨u, by simp, e, he, hd⟩
    · exact Or.inr ⟨u', by simp [hu'], he⟩

/-- C8: every file saved by the TDnet pass lies under the directory of the
date derived from its entry's `published` field — the parsed date when it
parses, the range's start date when `published` is absent, empty or
unparsable (as packaged in `pubDay`). -/
theorem tdnet_saved_day (feedOf : String → List TEntry)
    (linkOracle : String → Nat → Attempt) (parseDate : String → Option PDate)
    (start endD : PDate) (outRoot : String) (sc np : Option (List String))
    (sleepSec : ℚ) (p : TPath)
    (hp : p ∈ (tdnet_download_dec_summary feedOf linkOracle parseDate start endD
        outRoot sc np sleepSec).saved) :
    ∃ e, (∃ url ∈ tdnet_feed_urls start endD 1000, e ∈ feedOf url) ∧
      p.root = outRoot ∧ p.day = pubDay e.published parseDate start ∧
      p.fname = safe_filename e.title ++ ".pdf" := by
  rcases tdnetFoldUrls_saved feedOf linkOracle parseDate start outRoot sleepSec
      sc np (tdnet_feed_urls start endD 1000) ⟨[], [], []⟩ p hp with h | ⟨u, hu, e, he, hd⟩
  · simp at h
  · exact ⟨e, ⟨u, hu, he⟩, hd⟩

/-- C8 witness: one entry published at a parsable timestamp "P" (parsed to
2025-08-03) is saved under that date, not under the range start
2025-08-01. -/
theorem tdnet_saved_day_witness :
    ∃ e, (∃ url ∈ tdnet_feed_urls ⟨2025, 8, 1⟩ ⟨2025, 8, 2⟩ 1000,
        e ∈ (fun _ : String => [(⟨"X社 決算短信", "", some "L1", some "P"⟩ : TEntry)]) url) ∧
      (⟨"out", ⟨2025, 8, 3⟩, "X社_決算短信.pdf"⟩ : TPath).root = "out" ∧
      (⟨"out", ⟨2025, 8, 3⟩, "X社_決算短信.pdf"⟩ : TPath).day =
        pubDay (some "P")
          (fun q => if q = "P" then some ⟨2025, 8, 3⟩ else none) ⟨2025, 8, 1⟩ ∧
      (⟨"out", ⟨2025, 8, 3⟩, "X社_決算短信.pdf"⟩ : TPath).fname =
        safe_filename "X社 決算短信" ++ ".pdf" := by
  have h := tdnet_saved_day
    (fun _ : String => [(⟨"X社 決算短信", "", some "L1", some "P"⟩ : TEntry)])
    (fun _ _ => Attempt.resp 200 1)
    (fun q => if q = "P" then some ⟨2025, 8, 3⟩ else none)
    ⟨2025, 8, 1⟩ ⟨2025, 8, 2⟩ "out" none none (6 / 10)
    ⟨"out", ⟨2025, 8, 3⟩, "X社_決算短信.pdf"⟩ (by decide)
  rcases h with ⟨e, he, hd⟩
  refine ⟨e, he, ?_⟩
  rcases he with ⟨u, _, he'⟩
  simp only [List.mem_singleton] at he'
  subst he'
  exact hd

/-- C9: `append_log` only ever appends — the resulting file is the prior
content followed by the given rows, with the header row prepended exactly
when the file did not exist; running it twice with the same rows appends
them twice (duplicates kept), and existing content is always a prefix of
the result (never rewritten or deduplicated). -/
theorem append_log_spec (rows : List (List String)) :
    append_log none rows = logHeader :: rows ∧
    (∀ c, append_log (some c) rows = c ++ rows) ∧
    (∀ c, c <+: append_log (some c) rows) ∧
    ∀ ex, append_log (some (append_log ex rows)) rows =
      append_log ex rows ++ rows := by
  refine ⟨rfl, fun c => rfl, fun c => ⟨rows, rfl⟩, fun ex => ?_⟩
  cases ex <;> rfl

/-- C10: the TDnet pass of `main` reads neither `tdnet_limit` nor
`max_retries` from the options — `tdnet_download_dec_summary` hard-codes
`limit=1000` for the recent feed and `max_retries=3` for entry fetches —
so two runs whose options differ only in those two fields behave
identically. -/
theorem tdnetPass_ignores_limit_retries (feedOf : String → List TEntry)
    (linkOracle : String → Nat → Attempt) (parseDate : String → Option PDate)
    (o : OptionsM) (l m : Nat) :
    tdnetPass feedOf linkOracle parseDate
        { o with tdnet_limit := l, max_retries := m } =
      tdnetPass feedOf linkOracle parseDate o := rfl

end EdinetTdnet
